import Mathlib

/-!
Verification development for the WhatsApp lead-messaging bot.

The repository contains two revisions of the application:
* `src/unnamed/part_000` — app.js v1 (two-pass cycle, read-receipt tracking);
* `src/unnamed/part_002` — setup-business.js followed by app.js v2
  (single-pass cycle with a combined welcome+catalog send, an
  `isRunning` cycle guard, and `finally`-based lock cleanup).

Definitions below are shallow embeddings of the JavaScript source.
Awaited I/O (message sends, file writes, Date parsing and formatting)
is passed in as explicit outcome parameters; everything else follows
the source line by line.  Suffix `000` / `002` on a name marks which
revision a definition comes from; definitions without a suffix are
textually identical in both revisions.
-/

/-- Membership test used for JS `Set` values modelled as lists. -/
def setHas (s : List String) (x : String) : Bool :=
  match s with
  | [] => false
  | y :: t => y == x || setHas t x

/-- Models JS `Set.add`: inserts `x` if absent (insertion order kept). -/
def setAdd (x : String) (s : List String) : List String :=
  if setHas s x then s else s ++ [x]

/-- Models JS `Set.delete`: removes `x` from the set. -/
def setDel (x : String) (s : List String) : List String :=
  s.filter (fun y => y ≠ x)

/-- Decides whether `pat` is an initial segment of `s` (character lists). -/
def startsList : List Char → List Char → Bool
  | [], _ => true
  | _ :: _, [] => false
  | a :: as, b :: bs => a == b && startsList as bs

/-- Models a JS whitespace character (the cases that occur in the data). -/
def isJsSpace (c : Char) : Bool :=
  c == ' ' || c == '\t' || c == '\n' || c == '\r'

/-- Strips whitespace from both ends of a character list. -/
def trimChars (l : List Char) : List Char :=
  ((l.dropWhile isJsSpace).reverse.dropWhile isJsSpace).reverse

/-- Models JS `String.prototype.trim`: strips whitespace at both ends. -/
def jsTrim (s : String) : String :=
  String.mk (trimChars s.toList)

/-- Models JS `String.prototype.startsWith`. -/
def jsStartsWith (s pat : String) : Bool := startsList pat.toList s.toList

/-- Lowercases one ASCII letter, as JS `toLowerCase` does on ASCII text. -/
def charLower (c : Char) : Char :=
  if 'A' ≤ c && c ≤ 'Z' then Char.ofNat (c.toNat + 32) else c

/-- Models JS `String.prototype.toLowerCase` on ASCII text. -/
def jsToLower (s : String) : String := String.mk (s.toList.map charLower)

/-- Decides whether `pat` occurs contiguously inside `s` (character lists). -/
def occursIn (pat : List Char) : List Char → Bool
  | [] => startsList pat []
  | c :: t => startsList pat (c :: t) || occursIn pat t

/-- Models JS `String.prototype.includes`. -/
def jsIncludes (s pat : String) : Bool := occursIn pat.toList s.toList

/-- Numeric value of a digit list, most significant first. -/
def digitsToNat (l : List Char) : Nat :=
  l.foldl (fun a c => a * 10 + (c.toNat - '0'.toNat)) 0

/-- Splits a character list into its leading digits and the rest. -/
def takeDigits (l : List Char) : List Char × List Char :=
  (l.takeWhile Char.isDigit, l.dropWhile Char.isDigit)

/-- Models JS `parseFloat`: parses the longest decimal-literal prefix of
the string (optional sign, digits, optional fraction, optional exponent)
and returns the sign, the mantissa digits as a natural number, and the
power-of-ten scale, so the parsed value is `(-1)^neg * mant * 10^e`.
Returns `none` when no digits are found (JS `NaN`). -/
def jsParseFloat (l0 : List Char) : Option (Bool × Nat × Int) :=
  let l := l0.dropWhile (fun c => c == ' ' || c == '\t' || c == '\n' || c == '\r')
  let signAndRest : Bool × List Char :=
    match l with
    | '-' :: t => (true, t)
    | '+' :: t => (false, t)
    | _ => (false, l)
  let neg := signAndRest.1
  let (d1, l1) := takeDigits signAndRest.2
  let (d2, l2) :=
    match l1 with
    | '.' :: t => takeDigits t
    | _ => ([], l1)
  if d1.isEmpty && d2.isEmpty then none
  else
    let mant := digitsToNat (d1 ++ d2)
    let fracScale : Int := -(d2.length : Int)
    let expPart : Int :=
      match l2 with
      | 'e' :: rest | 'E' :: rest =>
        (match rest with
         | '-' :: t =>
             let (ds, _) := takeDigits t
             if ds.isEmpty then 0 else -(digitsToNat ds : Int)
         | '+' :: t =>
             let (ds, _) := takeDigits t
             if ds.isEmpty then 0 else (digitsToNat ds : Int)
         | t =>
             let (ds, _) := takeDigits t
             if ds.isEmpty then 0 else (digitsToNat ds : Int))
      | _ => 0
    some (neg, mant, fracScale + expPart)

/-- Models JS `Number.prototype.toFixed(0)` on an exactly represented
value `(-1)^neg * mant * 10^e`: rounds to the nearest integer (ties go
to the numerically larger candidate) and prints it in decimal. -/
def toFixed0 (neg : Bool) (mant : Nat) (e : Int) : String :=
  if mant == 0 then "0"
  else if 0 ≤ e then
    let n := mant * 10 ^ e.toNat
    (if neg then "-" else "") ++ Nat.repr n
  else
    let p := 10 ^ (-e).toNat
    let n := if neg then (mant + p / 2 - 1) / p else (mant + p / 2) / p
    if n == 0 then "0" else (if neg then "-" else "") ++ Nat.repr n

/-- Models the scientific-notation repair `parseFloat(phoneStr).toFixed(0)`
in `normalizePhone` (exact-rational model of the float arithmetic). -/
def parseFloatFixed0 (s : String) : String :=
  match jsParseFloat s.toList with
  | none => "NaN"
  | some (neg, mant, e) => toFixed0 neg mant e

/-- Keeps only the decimal digits of a string: models the JS
`replace` of every non-digit with the empty string. -/
def digitsOnly (s : String) : String :=
  String.mk (s.toList.filter Char.isDigit)

/-- Embeds `normalizePhone` of part_000 (lines 52-77), applied to the
string form of the raw value: trim, repair scientific notation when the
text contains "E+" or "e+", drop non-digits, prefix bare 10-digit
numbers with "91", and strip one leading zero before re-checking. -/
def normalizePhone000 (phone : String) : String :=
  let phoneStr := jsTrim phone
  let phoneStr :=
    if jsIncludes phoneStr "E+" || jsIncludes phoneStr "e+" then
      parseFloatFixed0 phoneStr
    else phoneStr
  let digits := digitsOnly phoneStr
  if digits.length == 10 then "91" ++ digits
  else if jsStartsWith digits "0" then
    let digits := String.mk (digits.toList.drop 1)
    if digits.length == 10 then "91" ++ digits else digits
  else digits

/-- Embeds `normalizePhone` of part_002 (lines 321-352): like the
part_000 version but keeps '+' characters while stripping, drops one
leading '+', and recognises an explicit 12-digit "91"-prefixed form. -/
def normalizePhone002 (phone : String) : String :=
  let phoneStr := jsTrim phone
  let phoneStr :=
    if jsIncludes phoneStr "E+" || jsIncludes phoneStr "e+" then
      parseFloatFixed0 phoneStr
    else phoneStr
  let digits := String.mk (phoneStr.toList.filter (fun c => c.isDigit || c == '+'))
  let digits :=
    if jsStartsWith digits "+" then String.mk (digits.toList.drop 1) else digits
  if digits.length == 10 then "91" ++ digits
  else if digits.length == 12 && jsStartsWith digits "91" then digits
  else if digits.length == 11 && jsStartsWith digits "0" then
    "91" ++ String.mk (digits.toList.drop 1)
  else digits

/-- Models `String(phone)` for an integral JS number below 10^21:
JS prints such numbers in plain decimal, never in exponent form, so the
spreadsheet artifact 9.876543210E9 (the number 9876543210) reaches
`normalizePhone` as the string "9876543210". -/
def jsNumberToString (n : Nat) : String := Nat.repr n

/-- Applies the part_000 normalizer to a numeric raw phone value. -/
def normalizePhone000Num (n : Nat) : String :=
  normalizePhone000 (jsNumberToString n)

/-- Applies the part_002 normalizer to a numeric raw phone value. -/
def normalizePhone002Num (n : Nat) : String :=
  normalizePhone002 (jsNumberToString n)

/-- Claim C4: the inputs "9876543210", "09876543210", "919876543210" and
the scientific-notation artifact 9.876543210E9 (a numeric cell value,
equal to the JS number 9876543210) all normalize to "919876543210",
under both revisions of `normalizePhone`. -/
theorem c4_normalize_canonical :
    (normalizePhone000 "9876543210" = "919876543210" ∧
     normalizePhone000 "09876543210" = "919876543210" ∧
     normalizePhone000 "919876543210" = "919876543210" ∧
     normalizePhone000Num 9876543210 = "919876543210") ∧
    (normalizePhone002 "9876543210" = "919876543210" ∧
     normalizePhone002 "09876543210" = "919876543210" ∧
     normalizePhone002 "919876543210" = "919876543210" ∧
     normalizePhone002Num 9876543210 = "919876543210") := by
  decide

/- ------------------------------------------------------------------ -/
/- Log entries and the sent-phone views of the log files               -/
/- ------------------------------------------------------------------ -/

/-- Replaces every comma by a space: models `replace` with a comma
pattern and a global flag in `safeLogMessage`. -/
def stripCommas (l : List Char) : List Char :=
  l.map (fun c => if c == ',' then ' ' else c)

/-- Replaces every line break (optionally preceded by a carriage
return) by a space: models the global line-break `replace` in
`safeLogMessage`. -/
def stripNewlines : List Char → List Char
  | [] => []
  | '\r' :: '\n' :: t => ' ' :: stripNewlines t
  | '\n' :: t => ' ' :: stripNewlines t
  | c :: t => c :: stripNewlines t

/-- Free-text sanitization applied to the name field in
`safeLogMessage`: commas and line breaks become spaces, then trim. -/
def sanitizeName (name : String) : String :=
  jsTrim (String.mk (stripNewlines (stripCommas name.toList)))

/-- Ambient time values of one call, passed in explicitly: `nowStr` is
the formatted timestamp the code builds from the current date, `nowMs`
the current epoch milliseconds, and `dateMs` the epoch milliseconds the
runtime assigns to a parsed timestamp string. -/
structure Clock where
  nowStr : String
  nowMs : Int
  dateMs : String → Int

/-- A main-log entry as built by `safeLogMessage` in part_000
(columns Phone, Name, Timestamp, Status, SeenTimestamp, TimeToSee,
LastUpdated). -/
structure MainRow where
  phone : String
  name : String
  timestamp : String
  status : String
  seenTimestamp : String
  timeToSee : String
  lastUpdated : String
deriving DecidableEq

/-- A main-log or catalog-log entry as built by `safeLogMessage` in
part_002 (columns Phone, Name, Timestamp, Status). -/
structure ShortRow where
  phone : String
  name : String
  timestamp : String
  status : String
deriving DecidableEq

/-- Builds the part_000 main-log entry data of `safeLogMessage`
(lines 91-115): the phone is normalized, the name sanitized, seen
fields left empty, and LastUpdated set to the creation timestamp. -/
def mkMainEntry000 (phone name status : String) (clock : Clock) : MainRow :=
  { phone := normalizePhone000 phone
    name := sanitizeName name
    timestamp := clock.nowStr
    status := status
    seenTimestamp := ""
    timeToSee := ""
    lastUpdated := clock.nowStr }

/-- Builds the part_002 `safeLogMessage` entry data (lines 387-407). -/
def mkEntry002 (phone name status : String) (clock : Clock) : ShortRow :=
  { phone := normalizePhone002 phone
    name := sanitizeName name
    timestamp := clock.nowStr
    status := status }

/-- The fields of a parsed CSV record that `getSentPhones` and
`getCatalogSentPhones` read (the csv-parser library maps the header
names Phone and Status to these fields). -/
structure CsvRow where
  Phone : String
  Status : String
deriving DecidableEq

/-- The row test of `getSentPhones`: the Phone field is truthy and the
row passes the optional status filter. -/
def sentCond (statusFilter : Option String) (row : CsvRow) : Bool :=
  !(row.Phone == "") &&
    (match statusFilter with
     | none => true
     | some f => row.Status == f)

/-- The row-by-row accumulation of the csv replay in `getSentPhones`. -/
def sentFold (statusFilter : Option String) (acc : List String) : List CsvRow → List String
  | [] => acc
  | row :: rest =>
      sentFold statusFilter
        (if sentCond statusFilter row then setAdd (normalizePhone000 row.Phone) acc
         else acc)
        rest

/-- Embeds `getSentPhones` (part_000 lines 252-266, textually identical
in part_002): replays the parsed rows of the main log and collects the
normalized phone of every row with a non-empty Phone that passes the
optional status filter. -/
def getSentPhones (statusFilter : Option String) (rows : List CsvRow) : List String :=
  sentFold statusFilter [] rows

/-- Embeds `getCatalogSentPhones`: collects normalized phones of
catalog-log rows whose Phone is non-empty and whose Status is Sent,
which is the `getSentPhones` accumulation with the filter fixed. -/
def getCatalogSentPhones (rows : List CsvRow) : List String :=
  sentFold (some "Sent") [] rows

/- ------------------------------------------------------------------ -/
/- Per-lead dispatch step of the processing cycle                      -/
/- ------------------------------------------------------------------ -/

/-- A lead record as produced by `fetchLeads`. -/
structure Lead where
  name : String
  phone : String
  sendCatalog : Bool
deriving DecidableEq

/-- Outcome of the awaited message send for one lead: `ok`, or a
rejection carrying the message text of the thrown value (`none` when
the rejection value has no string message, as with a thrown plain
object or an undefined reason). -/
inductive SendOutcome where
  | ok
  | err (msg : Option String)
deriving DecidableEq

/-- Failure classification in the catch block of `processLeads`
(part_000 lines 582-588, part_002 lines 1044-1050): the lowercased
message yields Invalid when it contains one of the three recognised
substrings, otherwise Failed. -/
def classifyError (m : String) : String :=
  let errorMsg := jsToLower m
  if jsIncludes errorMsg "not registered" ||
     jsIncludes errorMsg "invalid number" ||
     jsIncludes errorMsg "incorrect number" then "Invalid"
  else "Failed"

/-- Mutable state touched while processing one lead of the first pass:
the processing locks, the in-cycle sent set, and the rows queued to the
main log so far. -/
structure LeadCtx where
  locks : List String
  sent : List String
  log : List MainRow
deriving DecidableEq

/-- Result of processing one lead: the updated state, whether a send
was attempted, and whether an exception escaped the per-lead body. -/
structure StepOut where
  locks : List String
  sent : List String
  log : List MainRow
  sendAttempted : Bool
  thrown : Bool
deriving DecidableEq

/-- Embeds the first-pass loop body of `processLeads` in part_000
(lines 556-599).  The awaited send is abstracted by `sendRes`.  On a
rejection without a string message the catch block itself throws while
lowercasing the message, so the lock removal below the try/catch is
skipped and the exception escapes to the cycle-level catch. -/
def leadStep000 (ctx : LeadCtx) (lead : Lead) (sendRes : SendOutcome) (clock : Clock) : StepOut :=
  let np := normalizePhone000 lead.phone
  if setHas ctx.locks np then
    { locks := ctx.locks, sent := ctx.sent, log := ctx.log, sendAttempted := false, thrown := false }
  else if setHas ctx.sent np then
    { locks := ctx.locks, sent := ctx.sent, log := ctx.log, sendAttempted := false, thrown := false }
  else
    let locks1 := setAdd np ctx.locks
    match sendRes with
    | .ok =>
        { locks := setDel np locks1
          sent := setAdd np ctx.sent
          log := ctx.log ++ [mkMainEntry000 lead.phone lead.name "Sent" clock]
          sendAttempted := true
          thrown := false }
    | .err none =>
        { locks := locks1
          sent := ctx.sent
          log := ctx.log
          sendAttempted := true
          thrown := true }
    | .err (some m) =>
        { locks := setDel np locks1
          sent := setAdd np ctx.sent
          log := ctx.log ++ [mkMainEntry000 lead.phone lead.name (classifyError m) clock]
          sendAttempted := true
          thrown := false }

/-- State touched by one lead of the part_002 single-pass loop. -/
structure LeadCtx2 where
  locks : List String
  sent : List String
  log : List ShortRow
deriving DecidableEq

/-- Result of one part_002 lead step. -/
structure StepOut2 where
  locks : List String
  sent : List String
  log : List ShortRow
  sendAttempted : Bool
  thrown : Bool
deriving DecidableEq

/-- Embeds the loop body of `processLeads` in part_002
(lines 1011-1061).  The awaited combined send
(`sendWelcomeWithCatalog`, whose internal logging of successful sends
is abstracted into the outcome) is represented by `sendRes`.  The lock
removal sits in a `finally` block, so it runs even when the catch block
throws while lowercasing a missing message. -/
def leadStep002 (ctx : LeadCtx2) (lead : Lead) (sendRes : SendOutcome) (clock : Clock) : StepOut2 :=
  let np := normalizePhone002 lead.phone
  if setHas ctx.locks np then
    { locks := ctx.locks, sent := ctx.sent, log := ctx.log, sendAttempted := false, thrown := false }
  else if setHas ctx.sent np then
    { locks := ctx.locks, sent := ctx.sent, log := ctx.log, sendAttempted := false, thrown := false }
  else
    let locks1 := setAdd np ctx.locks
    match sendRes with
    | .ok =>
        { locks := setDel np locks1
          sent := setAdd np ctx.sent
          log := ctx.log
          sendAttempted := true
          thrown := false }
    | .err none =>
        { locks := setDel np locks1
          sent := ctx.sent
          log := ctx.log
          sendAttempted := true
          thrown := true }
    | .err (some m) =>
        { locks := setDel np locks1
          sent := setAdd np ctx.sent
          log := ctx.log ++ [mkEntry002 lead.phone lead.name (classifyError m) clock]
          sendAttempted := true
          thrown := false }

/-- A fixed clock for concrete evaluations. -/
def testClock : Clock :=
  { nowStr := "2025-08-01 12:00:00", nowMs := 1754035200000, dateMs := fun _ => 1754000000000 }

/- ------------------------------------------------------------------ -/
/- Set and sent-set helper lemmas                                      -/
/- ------------------------------------------------------------------ -/

theorem setHas_append (a b : List String) (x : String) :
    setHas (a ++ b) x = (setHas a x || setHas b x) := by
  induction a with
  | nil => simp [setHas]
  | cons y t ih => simp [setHas, ih, Bool.or_assoc]

theorem setHas_setAdd_self (x : String) (s : List String) :
    setHas (setAdd x s) x = true := by
  unfold setAdd
  cases h : setHas s x with
  | true => simpa using h
  | false => simp [setHas_append, setHas]

theorem setHas_setAdd_mono (x y : String) (s : List String) (h : setHas s y = true) :
    setHas (setAdd x s) y = true := by
  unfold setAdd
  cases hx : setHas s x with
  | true => simpa using h
  | false => simp [setHas_append, h]

theorem sentFold_preserves (f : Option String) (rows : List CsvRow) (acc : List String)
    (y : String) (h : setHas acc y = true) :
    setHas (sentFold f acc rows) y = true := by
  induction rows generalizing acc with
  | nil => simpa [sentFold] using h
  | cons r t ih =>
      unfold sentFold
      cases hc : sentCond f r with
      | true => exact ih _ (by simpa [hc] using setHas_setAdd_mono _ _ _ h)
      | false => simpa [hc] using ih _ h

theorem sentFold_mem (f : Option String) (rows : List CsvRow) (acc : List String)
    (r : CsvRow) (hr : r ∈ rows) (hc : sentCond f r = true) :
    setHas (sentFold f acc rows) (normalizePhone000 r.Phone) = true := by
  induction rows generalizing acc with
  | nil => cases hr
  | cons s t ih =>
      rcases List.mem_cons.mp hr with h | h
      · subst h
        unfold sentFold
        rw [hc]
        exact sentFold_preserves _ _ _ _ (setHas_setAdd_self _ _)
      · unfold sentFold
        cases hcs : sentCond f s with
        | true => simpa [hcs] using ih _ h
        | false => simpa [hcs] using ih _ h

/- ------------------------------------------------------------------ -/
/- Claims C7, C3, C1                                                   -/
/- ------------------------------------------------------------------ -/

/-- Claim C7, counterexample: a send failure whose reason text is
"invalid number" does not contain "not registered", yet the cycle logs
status Invalid rather than Failed, so the claimed "exactly when" fails. -/
theorem c7_counterexample :
    (leadStep000 ⟨[], [], []⟩ ⟨"Alice", "9876543210", false⟩ (.err (some "invalid number"))
        testClock).log.map MainRow.status = ["Invalid"] ∧
    jsIncludes (jsToLower "invalid number") "not registered" = false := by
  decide

/-- Claim C7 (amended): for a send failure with reason text `m`, the
cycle appends one main-log row whose status is `classifyError m`, and
that status is Invalid exactly when the lowercased reason text contains
"not registered", "invalid number" or "incorrect number", and Failed
for every other reason text. -/
theorem c7_failure_classification (ctx : LeadCtx) (lead : Lead) (m : String) (clock : Clock)
    (hl : setHas ctx.locks (normalizePhone000 lead.phone) = false)
    (hs : setHas ctx.sent (normalizePhone000 lead.phone) = false) :
    (leadStep000 ctx lead (.err (some m)) clock).log =
      ctx.log ++ [mkMainEntry000 lead.phone lead.name (classifyError m) clock] ∧
    (classifyError m = "Invalid" ↔
      (jsIncludes (jsToLower m) "not registered" || jsIncludes (jsToLower m) "invalid number" ||
        jsIncludes (jsToLower m) "incorrect number") = true) ∧
    (classifyError m = "Failed" ↔
      (jsIncludes (jsToLower m) "not registered" || jsIncludes (jsToLower m) "invalid number" ||
        jsIncludes (jsToLower m) "incorrect number") = false) := by
  refine ⟨by simp [leadStep000, hl, hs], ?_, ?_⟩ <;>
    cases hc : (jsIncludes (jsToLower m) "not registered" ||
        jsIncludes (jsToLower m) "invalid number" ||
        jsIncludes (jsToLower m) "incorrect number") <;>
      simp [classifyError, hc]

/-- Concrete instance of the amended C7 theorem: a plain "timeout"
failure is logged with status Failed. -/
theorem c7_failure_classification_witness :
    (leadStep000 ⟨[], [], []⟩ ⟨"Alice", "9876543210", false⟩ (.err (some "timeout"))
        testClock).log =
      [] ++ [mkMainEntry000 "9876543210" "Alice" (classifyError "timeout") testClock] ∧
    (classifyError "timeout" = "Invalid" ↔
      (jsIncludes (jsToLower "timeout") "not registered" ||
        jsIncludes (jsToLower "timeout") "invalid number" ||
        jsIncludes (jsToLower "timeout") "incorrect number") = true) ∧
    (classifyError "timeout" = "Failed" ↔
      (jsIncludes (jsToLower "timeout") "not registered" ||
        jsIncludes (jsToLower "timeout") "invalid number" ||
        jsIncludes (jsToLower "timeout") "incorrect number") = false) :=
  c7_failure_classification ⟨[], [], []⟩ ⟨"Alice", "9876543210", false⟩ "timeout" testClock
    (by decide) (by decide)

/-- Claim C3: in part_000 the per-phone lock removal sits after the
try/catch rather than in a finally block, so when the send rejects with
a value that has no string message the catch block itself throws while
lowercasing the message and the lock stays held; part_002 removes the
lock in a finally block on the same input. -/
theorem c3_lock_release_on_throwing_catch :
    (leadStep000 ⟨[], [], []⟩ ⟨"Alice", "9876543210", false⟩ (.err none) testClock).locks =
      ["919876543210"] ∧
    (leadStep000 ⟨[], [], []⟩ ⟨"Alice", "9876543210", false⟩ (.err none) testClock).thrown =
      true ∧
    (leadStep002 ⟨[], [], []⟩ ⟨"Alice", "9876543210", false⟩ (.err none) testClock).locks =
      [] ∧
    (leadStep002 ⟨[], [], []⟩ ⟨"Alice", "9876543210", false⟩ (.err none) testClock).thrown =
      true := by
  decide

/-- Claim C1, counterexample: a send failure with reason "timeout"
(not recipient-invalid) is logged as Failed, but the normalized phone
is added to the in-cycle sent set, is contained in the sent set that
`getSentPhones` (called with no status filter) rebuilds from a log
holding the Failed row, and a later cycle therefore skips the lead
without attempting the send. -/
theorem c1_counterexample :
    (leadStep000 ⟨[], [], []⟩ ⟨"Alice", "9876543210", false⟩ (.err (some "timeout"))
        testClock).log.map MainRow.status = ["Failed"] ∧
    (leadStep000 ⟨[], [], []⟩ ⟨"Alice", "9876543210", false⟩ (.err (some "timeout"))
        testClock).sent = ["919876543210"] ∧
    setHas (getSentPhones none [⟨"919876543210", "Failed"⟩]) "919876543210" = true ∧
    (leadStep000 ⟨[], getSentPhones none [⟨"919876543210", "Failed"⟩], []⟩
        ⟨"Alice", "9876543210", false⟩ .ok testClock).sendAttempted = false := by
  decide

/-- Claim C1 (amended): when a send fails for a reason classified as
Failed, the cycle logs status Failed, but the normalized phone is added
to the in-cycle sent set, and any log whose parsed rows contain the
Failed row yields a `getSentPhones` set (no status filter, as
`processLeads` calls it) containing the phone, so a later cycle skips
the lead without attempting the send: Failed is effectively as terminal
as Invalid. -/
theorem c1_failed_lead_not_retried (ctx : LeadCtx) (lead : Lead) (m : String) (clock : Clock)
    (rows : List CsvRow)
    (hcl : classifyError m = "Failed")
    (hl : setHas ctx.locks (normalizePhone000 lead.phone) = false)
    (hs : setHas ctx.sent (normalizePhone000 lead.phone) = false)
    (hne : ¬ (normalizePhone000 lead.phone = ""))
    (hfix : normalizePhone000 (normalizePhone000 lead.phone) = normalizePhone000 lead.phone)
    (hrows : (⟨normalizePhone000 lead.phone, "Failed"⟩ : CsvRow) ∈ rows) :
    (leadStep000 ctx lead (.err (some m)) clock).log =
      ctx.log ++ [mkMainEntry000 lead.phone lead.name "Failed" clock] ∧
    setHas (leadStep000 ctx lead (.err (some m)) clock).sent
      (normalizePhone000 lead.phone) = true ∧
    setHas (getSentPhones none rows) (normalizePhone000 lead.phone) = true ∧
    (leadStep000 ⟨[], getSentPhones none rows, []⟩ lead .ok clock).sendAttempted = false := by
  have hmem : setHas (getSentPhones none rows) (normalizePhone000 lead.phone) = true := by
    have hc : sentCond none (⟨normalizePhone000 lead.phone, "Failed"⟩ : CsvRow) = true := by
      simp [sentCond, hne]
    have := sentFold_mem none rows [] _ hrows hc
    simpa [getSentPhones, hfix] using this
  refine ⟨by simp [leadStep000, hl, hs, hcl], ?_, hmem, ?_⟩
  · simp only [leadStep000, hl, hs]
    simp only [Bool.false_eq_true, if_false]
    exact setHas_setAdd_self _ _
  · simp [leadStep000, setHas, hmem]

/-- Concrete instance of the amended C1 theorem. -/
theorem c1_failed_lead_not_retried_witness :
    (leadStep000 ⟨[], [], []⟩ ⟨"Alice", "9876543210", false⟩ (.err (some "timeout"))
        testClock).log =
      [] ++ [mkMainEntry000 "9876543210" "Alice" "Failed" testClock] ∧
    setHas (leadStep000 ⟨[], [], []⟩ ⟨"Alice", "9876543210", false⟩ (.err (some "timeout"))
        testClock).sent (normalizePhone000 "9876543210") = true ∧
    setHas (getSentPhones none [⟨normalizePhone000 "9876543210", "Failed"⟩])
      (normalizePhone000 "9876543210") = true ∧
    (leadStep000 ⟨[], getSentPhones none [⟨normalizePhone000 "9876543210", "Failed"⟩], []⟩
        ⟨"Alice", "9876543210", false⟩ .ok testClock).sendAttempted = false :=
  c1_failed_lead_not_retried ⟨[], [], []⟩ ⟨"Alice", "9876543210", false⟩ "timeout" testClock
    [⟨normalizePhone000 "9876543210", "Failed"⟩]
    (by decide) (by decide) (by decide) (by decide) (by decide) (by decide)

/- ------------------------------------------------------------------ -/
/- The lead processing cycle                                           -/
/- ------------------------------------------------------------------ -/

/-- Builds the catalog-log entry data queued by `logCatalogSent` via
`safeLogMessage` (part_000): only the four catalog columns are written. -/
def mkCatalogEntry000 (phone name status : String) (clock : Clock) : ShortRow :=
  { phone := normalizePhone000 phone
    name := sanitizeName name
    timestamp := clock.nowStr
    status := status }

/-- Embeds the second-pass (catalog) loop body of `processLeads` in
part_000 (lines 603-656): skip when locked, when the welcome was not
sent, when the catalog is not requested, or when the catalog was
already sent; otherwise lock, send, log on success, and unlock.  The
catch block only writes to the console, so no exception escapes and
the lock is always removed. -/
def catalogStep000 (locks sent catalogSent : List String) (clog : List ShortRow)
    (lead : Lead) (sendRes : SendOutcome) (clock : Clock) :
    List String × List String × List ShortRow × Bool :=
  let np := normalizePhone000 lead.phone
  if setHas locks np then (locks, catalogSent, clog, false)
  else if !(setHas sent np) then (locks, catalogSent, clog, false)
  else if !lead.sendCatalog then (locks, catalogSent, clog, false)
  else if setHas catalogSent np then (locks, catalogSent, clog, false)
  else
    let locks1 := setAdd np locks
    match sendRes with
    | .ok =>
        (setDel np locks1, setAdd np catalogSent,
         clog ++ [mkCatalogEntry000 lead.phone lead.name "Sent" clock], true)
    | .err _ => (setDel np locks1, catalogSent, clog, true)

/-- Accumulated state of the first pass over the lead list. -/
structure Pass1State where
  locks : List String
  sent : List String
  log : List MainRow
  sends : Nat
  aborted : Bool
deriving DecidableEq

/-- Folds the part_000 first-pass loop over the fetched leads; an
exception escaping a lead body reaches the cycle-level catch, so the
remaining leads are not processed. -/
def pass1Fold000 (clock : Clock) (res : Nat → SendOutcome) (i : Nat) :
    List Lead → Pass1State → Pass1State
  | [], st => st
  | lead :: rest, st =>
      if st.aborted then st
      else
        let out := leadStep000 ⟨st.locks, st.sent, st.log⟩ lead (res i) clock
        pass1Fold000 clock res (i + 1) rest
          { locks := out.locks, sent := out.sent, log := out.log,
            sends := st.sends + (if out.sendAttempted then 1 else 0),
            aborted := out.thrown }

/-- Accumulated state of the part_000 second (catalog) pass. -/
structure Pass2State where
  locks : List String
  catalogSent : List String
  clog : List ShortRow
  sends : Nat
deriving DecidableEq

/-- Folds the part_000 catalog pass over the fetched leads. -/
def pass2Fold000 (clock : Clock) (res : Nat → SendOutcome) (sent : List String) (i : Nat) :
    List Lead → Pass2State → Pass2State
  | [], st => st
  | lead :: rest, st =>
      let out := catalogStep000 st.locks sent st.catalogSent st.clog lead (res i) clock
      pass2Fold000 clock res sent (i + 1) rest
        { locks := out.1, catalogSent := out.2.1, clog := out.2.2.1,
          sends := st.sends + (if out.2.2.2 then 1 else 0) }

/-- Accumulated state of the part_002 single pass. -/
structure Pass1State2 where
  locks : List String
  sent : List String
  log : List ShortRow
  sends : Nat
  aborted : Bool
deriving DecidableEq

/-- Folds the part_002 lead loop over the fetched leads. -/
def pass1Fold002 (clock : Clock) (res : Nat → SendOutcome) (i : Nat) :
    List Lead → Pass1State2 → Pass1State2
  | [], st => st
  | lead :: rest, st =>
      if st.aborted then st
      else
        let out := leadStep002 ⟨st.locks, st.sent, st.log⟩ lead (res i) clock
        pass1Fold002 clock res (i + 1) rest
          { locks := out.locks, sent := out.sent, log := out.log,
            sends := st.sends + (if out.sendAttempted then 1 else 0),
            aborted := out.thrown }

/-- Environment of one cycle invocation: the leads the fetch returns
and the outcome of each awaited send, by lead position. -/
structure CycleEnv where
  leads : List Lead
  welcomeRes : Nat → SendOutcome
  catalogRes : Nat → SendOutcome
  clock : Clock

/-- Process-wide state read by a cycle invocation.  `isRunning` records
that a previous invocation is still in flight: part_002 consults it as
the guard `processLeads.isRunning`, while the part_000 cycle has no
such guard and never reads it.  `clientReady` packs
`client !== null && status === "ready"`, `processing` the start/stop
flag, and the two row lists the parsed contents of the log files. -/
structure CycleState where
  isRunning : Bool
  clientReady : Bool
  processing : Bool
  fileRows : List CsvRow
  catalogFileRows : List CsvRow
  locks : List String
deriving DecidableEq

/-- Observable result of one cycle invocation: final state, whether a
lead fetch was performed, how many sends were attempted, how many log
entries were queued for writing, and whether the reentry skip message
was logged. -/
structure CycleResult where
  state : CycleState
  fetched : Bool
  sends : Nat
  logWrites : Nat
  skipLogged : Bool
deriving DecidableEq

/-- Embeds `processLeads` of part_000 (lines 540-664): there is no
reentry guard and no readiness check at cycle level; the cycle fetches,
rebuilds both sent sets with no status filter, runs the welcome pass
and, unless an exception ended the welcome pass, the catalog pass. -/
def processLeads000 (st : CycleState) (env : CycleEnv) : CycleResult :=
  let sent0 := getSentPhones none st.fileRows
  let cat0 := getCatalogSentPhones st.catalogFileRows
  let init1 : Pass1State := ⟨st.locks, sent0, [], 0, false⟩
  let p1 := if st.processing then pass1Fold000 env.clock env.welcomeRes 0 env.leads init1
            else init1
  if p1.aborted then
    { state := { st with locks := p1.locks }, fetched := true,
      sends := p1.sends, logWrites := p1.log.length, skipLogged := false }
  else
    let init2 : Pass2State := ⟨p1.locks, cat0, [], p1.sends⟩
    let p2 := if st.processing then pass2Fold000 env.clock env.catalogRes p1.sent 0 env.leads init2
              else init2
    { state := { st with locks := p2.locks }, fetched := true,
      sends := p2.sends, logWrites := p1.log.length + p2.clog.length, skipLogged := false }

/-- Embeds `processLeads` of part_002 (lines 982-1075): a set
`isRunning` flag makes the invocation return immediately after logging
the skip; an unready client also returns early (after clearing the
flag); otherwise the cycle fetches, rebuilds the sent sets, runs the
single lead pass, and clears the flag in a finally block. -/
def processLeads002 (st : CycleState) (env : CycleEnv) : CycleResult :=
  if st.isRunning then
    { state := st, fetched := false, sends := 0, logWrites := 0, skipLogged := true }
  else if !st.clientReady then
    { state := st, fetched := false, sends := 0, logWrites := 0, skipLogged := false }
  else
    let sent0 := getSentPhones none st.fileRows
    let init1 : Pass1State2 := ⟨st.locks, sent0, [], 0, false⟩
    let p := if st.processing then pass1Fold002 env.clock env.welcomeRes 0 env.leads init1
             else init1
    { state := { st with locks := p.locks }, fetched := true,
      sends := p.sends, logWrites := p.log.length, skipLogged := false }

/-- A cycle state in which a previous invocation is still in flight. -/
def busyState : CycleState :=
  { isRunning := true, clientReady := true, processing := true,
    fileRows := [], catalogFileRows := [], locks := [] }

/-- A one-lead environment whose sends all succeed. -/
def demoEnv : CycleEnv :=
  { leads := [⟨"Alice", "9876543210", false⟩],
    welcomeRes := fun _ => .ok, catalogRes := fun _ => .ok, clock := testClock }

/-- Claim C2, counterexample: the part_000 cycle has no concurrency
guard, so an invocation made while a previous invocation is still in
flight (isRunning set) still performs the fetch, attempts a send and
queues a log write, instead of being a no-op. -/
theorem c2_counterexample :
    (processLeads000 busyState demoEnv).fetched = true ∧
    (processLeads000 busyState demoEnv).sends = 1 ∧
    (processLeads000 busyState demoEnv).logWrites = 1 ∧
    (processLeads000 busyState demoEnv).skipLogged = false := by
  decide

/-- Claim C2 (amended): in the part_002 revision, invoking the cycle
while a previous invocation is still in flight performs no fetch, no
send and no log write, logs the skip, and returns with the state
unchanged; the part_000 revision has no such guard. -/
theorem c2_cycle_guard (st : CycleState) (env : CycleEnv) (h : st.isRunning = true) :
    processLeads002 st env =
      { state := st, fetched := false, sends := 0, logWrites := 0, skipLogged := true } := by
  simp [processLeads002, h]

/-- Concrete instance of the amended C2 theorem. -/
theorem c2_cycle_guard_witness :
    processLeads002 busyState demoEnv =
      { state := busyState, fetched := false, sends := 0, logWrites := 0,
        skipLogged := true } :=
  c2_cycle_guard busyState demoEnv rfl

/- ------------------------------------------------------------------ -/
/- The log write queue (main log, part_000 lines 117-165)              -/
/- ------------------------------------------------------------------ -/

/-- Prepends a character to the first segment of a split. -/
def consHead (c : Char) : List (List Char) → List (List Char)
  | [] => [[c]]
  | r :: rs => (c :: r) :: rs

/-- Splits file content at every newline character; the number of
segments is one more than the number of newlines, and a final empty
segment witnesses a trailing newline. -/
def splitNl : List Char → List (List Char)
  | [] => [[]]
  | c :: rest => if c == '\n' then [] :: splitNl rest else consHead c (splitNl rest)

/-- Decides whether a character list contains a newline. -/
def hasNl : List Char → Bool
  | [] => false
  | c :: t => c == '\n' || hasNl t

/-- Models `content.endsWith` applied to a newline. -/
def endsWithNl (l : List Char) : Bool :=
  match l.reverse with
  | [] => false
  | c :: _ => c == '\n'

/-- The newline self-repair of `processLogQueue`: when the existing
content is non-empty and does not end with a newline, one newline is
appended before the new row. -/
def repairNl (content : List Char) : List Char :=
  if !content.isEmpty && !(endsWithNl content) then content ++ ['\n'] else content

/-- The comma-joined text of a part_000 main-log row, as built by the
template string in `processLogQueue`. -/
def mainRowChars (r : MainRow) : List Char :=
  r.phone.toList ++ ',' :: r.name.toList ++ ',' :: r.timestamp.toList ++ ',' ::
    r.status.toList ++ ',' :: r.seenTimestamp.toList ++ ',' :: r.timeToSee.toList ++ ',' ::
      r.lastUpdated.toList

/-- The part_000 main-log header row. -/
def mainHeader000 : List Char :=
  "Phone,Name,Timestamp,Status,SeenTimestamp,TimeToSee,LastUpdated".toList

/-- Outcome of the awaited file operations of one main-queue step:
everything succeeds; the newline-check read throws (swallowed by the
inner catch, so the row is appended without repair); the repair append
or the header write throws; or the final row append throws.  The last
two reach the outer catch, which pushes the entry back on the front of
the queue. -/
inductive WriteOutcome where
  | ok
  | readFails
  | repairFails
  | appendFails
deriving DecidableEq

/-- State of the main log file and its write queue. -/
structure MainLogFileState where
  file : Option (List Char)
  queue : List MainRow
  isProcessing : Bool
deriving DecidableEq

/-- Embeds one main-branch step of `processLogQueue` (part_000 lines
117-165, same logic in part_002 lines 409-465): when the queue is
non-empty and no step is in flight, the first entry is taken; a missing
file is created with the header row; existing content is newline-
repaired; the row is appended; on an I/O failure the outer catch puts
the entry back at the front of the queue; the finally block clears the
processing flag in every case. -/
def processMainQueueStep (st : MainLogFileState) (w : WriteOutcome) : MainLogFileState :=
  if !st.isProcessing && !st.queue.isEmpty then
    match st.queue with
    | [] => st
    | entry :: rest =>
        let line := mainRowChars entry ++ ['\n']
        match st.file, w with
        | none, .ok =>
            { file := some (mainHeader000 ++ '\n' :: line), queue := rest, isProcessing := false }
        | none, .readFails =>
            { file := some (mainHeader000 ++ '\n' :: line), queue := rest, isProcessing := false }
        | none, .repairFails =>
            { file := none, queue := entry :: rest, isProcessing := false }
        | none, .appendFails =>
            { file := some (mainHeader000 ++ ['\n']), queue := entry :: rest, isProcessing := false }
        | some content, .ok =>
            { file := some (repairNl content ++ line), queue := rest, isProcessing := false }
        | some content, .readFails =>
            { file := some (content ++ line), queue := rest, isProcessing := false }
        | some content, .repairFails =>
            { file := some content, queue := entry :: rest, isProcessing := false }
        | some content, .appendFails =>
            { file := some (repairNl content), queue := entry :: rest, isProcessing := false }
  else st

theorem splitNl_ne_nil (l : List Char) : splitNl l ≠ [] := by
  cases l with
  | nil => simp [splitNl]
  | cons c t =>
      simp only [splitNl]
      cases hc : (c == '\n') with
      | true => simp
      | false =>
          simp only [Bool.false_eq_true, if_false]
          cases h : splitNl t <;> simp [consHead]

theorem consHead_append (c : Char) (l m : List (List Char)) (h : l ≠ []) :
    consHead c (l ++ m) = consHead c l ++ m := by
  cases l with
  | nil => exact absurd rfl h
  | cons r rs => simp [consHead]

theorem splitNl_append_nl (a b : List Char) :
    splitNl (a ++ '\n' :: b) = splitNl a ++ splitNl b := by
  induction a with
  | nil => simp [splitNl]
  | cons c t ih =>
      simp only [List.cons_append, splitNl]
      cases hc : (c == '\n') with
      | true => simp [ih]
      | false =>
          simp only [Bool.false_eq_true, if_false]
          rw [show t.append ('\n' :: b) = t ++ '\n' :: b from rfl, ih,
            consHead_append c (splitNl t) (splitNl b) (splitNl_ne_nil t)]

theorem splitNl_of_no_nl (l : List Char) (h : hasNl l = false) : splitNl l = [l] := by
  induction l with
  | nil => simp [splitNl]
  | cons c t ih =>
      simp only [hasNl, Bool.or_eq_false_iff] at h
      simp [splitNl, h.1, ih h.2, consHead]

theorem endsWithNl_append_nl (a : List Char) : endsWithNl (a ++ ['\n']) = true := by
  simp [endsWithNl, List.reverse_append]

/-- Claim C8: appending one entry to an existing non-empty main log
whose last byte is not a newline yields a file that ends with a
newline and whose newline segments are exactly the old segments — the
truncated final row intact and unmerged — followed by the one new row
and the empty segment of the trailing newline. -/
theorem c8_newline_self_repair (st : MainLogFileState) (e : MainRow) (rest : List MainRow)
    (content : List Char)
    (hq : st.queue = e :: rest) (hp : st.isProcessing = false)
    (hf : st.file = some content) (hne : content.isEmpty = false)
    (hnl : endsWithNl content = false) (hrow : hasNl (mainRowChars e) = false) :
    (processMainQueueStep st .ok).file =
      some (content ++ '\n' :: (mainRowChars e ++ ['\n'])) ∧
    splitNl (content ++ '\n' :: (mainRowChars e ++ ['\n'])) =
      splitNl content ++ [mainRowChars e, []] ∧
    endsWithNl (content ++ '\n' :: (mainRowChars e ++ ['\n'])) = true ∧
    (processMainQueueStep st .ok).queue = rest := by
  have hrepair : repairNl content = content ++ ['\n'] := by
    simp [repairNl, hne, hnl]
  refine ⟨?_, ?_, ?_, ?_⟩
  · simp [processMainQueueStep, hq, hp, hf, hrepair]
  · rw [splitNl_append_nl]
    have : mainRowChars e ++ ['\n'] = mainRowChars e ++ '\n' :: ([] : List Char) := rfl
    rw [this, splitNl_append_nl, splitNl_of_no_nl _ hrow]
    simp [splitNl]
  · have : content ++ '\n' :: (mainRowChars e ++ ['\n']) =
        (content ++ '\n' :: mainRowChars e) ++ ['\n'] := by simp
    rw [this, endsWithNl_append_nl]
  · simp [processMainQueueStep, hq, hp, hf]

/-- Concrete instance of the C8 theorem: a log whose last row was
truncated (no trailing newline) is repaired and extended by one row. -/
theorem c8_newline_self_repair_witness :
    (processMainQueueStep
        ⟨some "Phone,Name,Timestamp,Status,SeenTimestamp,TimeToSee,LastUpdated\n919876543210,Ali,2025-08-01 10:00:00,Sent".toList,
          [mkMainEntry000 "9876500001" "Bob" "Sent" testClock], false⟩ .ok).file =
      some ("Phone,Name,Timestamp,Status,SeenTimestamp,TimeToSee,LastUpdated\n919876543210,Ali,2025-08-01 10:00:00,Sent".toList ++
        '\n' :: (mainRowChars (mkMainEntry000 "9876500001" "Bob" "Sent" testClock) ++ ['\n'])) ∧
    splitNl ("Phone,Name,Timestamp,Status,SeenTimestamp,TimeToSee,LastUpdated\n919876543210,Ali,2025-08-01 10:00:00,Sent".toList ++
        '\n' :: (mainRowChars (mkMainEntry000 "9876500001" "Bob" "Sent" testClock) ++ ['\n'])) =
      splitNl "Phone,Name,Timestamp,Status,SeenTimestamp,TimeToSee,LastUpdated\n919876543210,Ali,2025-08-01 10:00:00,Sent".toList ++
        [mainRowChars (mkMainEntry000 "9876500001" "Bob" "Sent" testClock), []] ∧
    endsWithNl ("Phone,Name,Timestamp,Status,SeenTimestamp,TimeToSee,LastUpdated\n919876543210,Ali,2025-08-01 10:00:00,Sent".toList ++
        '\n' :: (mainRowChars (mkMainEntry000 "9876500001" "Bob" "Sent" testClock) ++ ['\n'])) = true ∧
    (processMainQueueStep
        ⟨some "Phone,Name,Timestamp,Status,SeenTimestamp,TimeToSee,LastUpdated\n919876543210,Ali,2025-08-01 10:00:00,Sent".toList,
          [mkMainEntry000 "9876500001" "Bob" "Sent" testClock], false⟩ .ok).queue = [] :=
  c8_newline_self_repair _ _ _ _ rfl rfl rfl (by decide) (by decide) (by decide)

/-- Claim C9: when the file write of the first queued entry fails, the
entry is pushed back onto the front of the queue, so the queue is
exactly what it was before the step and no entry is dropped. -/
theorem c9_failed_write_requeues (st : MainLogFileState) (e : MainRow) (rest : List MainRow)
    (w : WriteOutcome)
    (hq : st.queue = e :: rest) (hp : st.isProcessing = false)
    (hw : w = .repairFails ∨ w = .appendFails) :
    (processMainQueueStep st w).queue = e :: rest ∧
    (processMainQueueStep st w).isProcessing = false := by
  rcases hw with hw | hw <;> subst hw <;>
    cases hfile : st.file <;> simp [processMainQueueStep, hq, hp, hfile]

/-- Concrete instance of the C9 theorem. -/
theorem c9_failed_write_requeues_witness :
    (processMainQueueStep
        ⟨some "Phone,Name,Timestamp,Status,SeenTimestamp,TimeToSee,LastUpdated\n".toList,
          [mkMainEntry000 "9876500001" "Bob" "Sent" testClock], false⟩ .appendFails).queue =
      [mkMainEntry000 "9876500001" "Bob" "Sent" testClock] ∧
    (processMainQueueStep
        ⟨some "Phone,Name,Timestamp,Status,SeenTimestamp,TimeToSee,LastUpdated\n".toList,
          [mkMainEntry000 "9876500001" "Bob" "Sent" testClock], false⟩ .appendFails).isProcessing =
      false :=
  c9_failed_write_requeues _ _ _ _ rfl rfl (Or.inr rfl)

/- ------------------------------------------------------------------ -/
/- The seen-status transition (part_000 lines 272-376)                 -/
/- ------------------------------------------------------------------ -/

/-- Splits a row at every comma, as `row.split` with a comma does. -/
def splitComma : List Char → List (List Char)
  | [] => [[]]
  | c :: rest => if c == ',' then [] :: splitComma rest else consHead c (splitComma rest)

/-- Models `newRows.join` with a newline separator. -/
def joinNl : List (List Char) → List Char
  | [] => []
  | [r] => r
  | r :: rs => r ++ '\n' :: joinNl rs

/-- A row is skipped by the seen-update scan when it is empty or
whitespace only. -/
def rowBlank (row : List Char) : Bool :=
  row.isEmpty || (trimChars row).isEmpty

/-- The comma fields of a row. -/
def rowCols (row : List Char) : List (List Char) := splitComma row

/-- The comma fields padded with empty strings to at least six columns,
as the while-push loop in `updateLogWithSeenStatus` does. -/
def rowColsPadded (row : List Char) : List (List Char) :=
  rowCols row ++ List.replicate (6 - (rowCols row).length) []

/-- The normalized phone of a row (first column). -/
def rowPhone (row : List Char) : String :=
  normalizePhone000 (String.mk ((rowColsPadded row).getD 0 []))

/-- The status field of a row (fourth column). -/
def rowStatus (row : List Char) : List Char := (rowColsPadded row).getD 3 []

/-- Decimal text of an integer, as JS prints an integral number. -/
def intChars (i : Int) : List Char :=
  match i with
  | .ofNat n => (Nat.repr n).toList
  | .negSucc n => '-' :: (Nat.repr (n + 1)).toList

/-- Models `Math.round` applied to a millisecond difference divided by
1000: the floor of the quotient plus one half. -/
def jsRoundDiv1000 (d : Int) : Int := Int.fdiv (2 * d + 1000) 2000

/-- Rewrites one Sent row to Seen as the update branch of
`updateLogWithSeenStatus` does: the first three columns are kept, the
status becomes Seen, the seen timestamp and last-updated columns take
the formatted current time, and the time-to-see column the rounded
elapsed seconds since the timestamp of this row; the last-updated
column is produced only when the unpadded row already had at least
seven columns. -/
def seenRewriteRow (row : List Char) (clock : Clock) : List Char :=
  let logPhone := (rowColsPadded row).getD 0 []
  let name := (rowColsPadded row).getD 1 []
  let timestamp := (rowColsPadded row).getD 2 []
  let tts := jsRoundDiv1000 (clock.nowMs - clock.dateMs (String.mk timestamp))
  let base := logPhone ++ ',' :: name ++ ',' :: timestamp ++ ',' :: "Seen".toList ++
    ',' :: clock.nowStr.toList ++ ',' :: intChars tts
  if 7 ≤ (rowCols row).length then base ++ ',' :: clock.nowStr.toList else base

/-- Result of the row scan of `updateLogWithSeenStatus`. -/
structure SeenLoopOut where
  rows : List (List Char)
  customerName : Option (List Char)
  updated : Bool
  alreadySeen : Bool
deriving DecidableEq

/-- The row scan of `updateLogWithSeenStatus` (part_000 lines 310-352):
blank rows are skipped (and so dropped from the rewritten file); a row
of another phone is kept; for the target phone a Seen row sets the
already-seen flag, and the first Sent row met while neither updated nor
already-seen is rewritten, its name captured. -/
def seenLoop (np : String) (clock : Clock) (updated alreadySeen : Bool) :
    List (List Char) → SeenLoopOut
  | [] => ⟨[], none, updated, alreadySeen⟩
  | row :: rest =>
      if rowBlank row then seenLoop np clock updated alreadySeen rest
      else if rowPhone row == np then
        let alreadySeen1 := if rowStatus row == "Seen".toList then true else alreadySeen
        if rowStatus row == "Sent".toList && !updated && !alreadySeen1 then
          let out := seenLoop np clock true alreadySeen1 rest
          ⟨seenRewriteRow row clock :: out.rows,
            some ((rowColsPadded row).getD 1 []), true, out.alreadySeen⟩
        else
          let out := seenLoop np clock updated alreadySeen1 rest
          ⟨row :: out.rows, out.customerName, out.updated, out.alreadySeen⟩
      else
        let out := seenLoop np clock updated alreadySeen rest
        ⟨row :: out.rows, out.customerName, out.updated, out.alreadySeen⟩

/-- Process state read and written by `updateLogWithSeenStatus`: the
raw main-log content (none when the file is missing) and the in-memory
seen-notification set. -/
structure SeenState where
  file : Option (List Char)
  seenNotifications : List String
deriving DecidableEq

/-- Observable result of one `updateLogWithSeenStatus` call: the new
state, the customer name of the transitioned row (none when no
transition happened; the code uses it for the notification, the spec
words it as the return value), and whether the file was rewritten. -/
structure SeenResult where
  state : SeenState
  customerName : Option (List Char)
  wrote : Bool
deriving DecidableEq

/-- Embeds `updateLogWithSeenStatus` (part_000 lines 272-376): the
phone is normalized, a missing file is a no-op, the content is split at
newlines into a header and body rows, the body is scanned with the
already-seen flag primed from the seen-notification set, and only when
a row was rewritten is the joined content written back (with a trailing
newline) and the phone added to the seen-notification set. -/
def updateLogWithSeenStatus (st : SeenState) (phone : String) (clock : Clock) : SeenResult :=
  let np := normalizePhone000 phone
  match st.file with
  | none => ⟨st, none, false⟩
  | some content =>
      match splitNl content with
      | [] => ⟨st, none, false⟩
      | header :: body =>
          let alreadySeen0 := setHas st.seenNotifications np
          let out := seenLoop np clock false alreadySeen0 body
          if out.updated then
            ⟨{ file := some (joinNl (header :: out.rows) ++ ['\n']),
               seenNotifications := setAdd np st.seenNotifications },
             out.customerName, true⟩
          else ⟨st, none, false⟩

theorem seenLoop_alreadySeen (np : String) (clock : Clock) (u : Bool)
    (rows : List (List Char)) :
    (seenLoop np clock u true rows).updated = u := by
  induction rows generalizing u with
  | nil => rfl
  | cons row rest ih =>
      unfold seenLoop
      cases hb : rowBlank row with
      | true => simpa [hb] using ih u
      | false =>
          cases hp : (rowPhone row == np) with
          | true =>
              cases hsee : (rowStatus row == "Seen".toList) with
              | true => simpa [hb, hp, hsee] using ih u
              | false => simpa [hb, hp, hsee] using ih u
          | false => simpa [hb, hp] using ih u

theorem seenLoop_updated_rows (np : String) (clock : Clock) (a : Bool)
    (rows : List (List Char)) :
    (seenLoop np clock true a rows).rows = rows.filter (fun r => !rowBlank r) ∧
    (seenLoop np clock true a rows).updated = true := by
  induction rows generalizing a with
  | nil => exact ⟨rfl, rfl⟩
  | cons row rest ih =>
      unfold seenLoop
      cases hb : rowBlank row with
      | true => simpa [List.filter, hb] using ih a
      | false =>
          cases hp : (rowPhone row == np) with
          | true =>
              cases hsee : (rowStatus row == "Seen".toList) with
              | true =>
                  have h := ih true
                  simp [List.filter, hb, hp, hsee, h.1, h.2]
              | false =>
                  have h := ih a
                  simp [List.filter, hb, hp, hsee, h.1, h.2]
          | false =>
              have h := ih a
              simp [List.filter, hb, hp, h.1, h.2]

theorem seenLoop_updates (np : String) (clock : Clock) (rows : List (List Char))
    (hex : ∃ row ∈ rows, rowBlank row = false ∧ rowPhone row = np ∧
      rowStatus row = "Sent".toList)
    (hnos : ∀ row ∈ rows, rowBlank row = false → rowPhone row = np →
      ¬ rowStatus row = "Seen".toList) :
    (seenLoop np clock false false rows).updated = true := by
  induction rows with
  | nil => obtain ⟨row, hmem, -⟩ := hex; cases hmem
  | cons row rest ih =>
      obtain ⟨w, hw, hwb, hwp, hws⟩ := hex
      have hnos' : ∀ r ∈ rest, rowBlank r = false → rowPhone r = np →
          ¬ rowStatus r = "Seen".toList :=
        fun r hr => hnos r (List.mem_cons_of_mem _ hr)
      unfold seenLoop
      cases hb : rowBlank row with
      | true =>
          have hw' : w ∈ rest := by
            rcases List.mem_cons.mp hw with h | h
            · subst h; rw [hb] at hwb; cases hwb
            · exact h
          simpa [hb] using ih ⟨w, hw', hwb, hwp, hws⟩ hnos'
      | false =>
          cases hp : (rowPhone row == np) with
          | true =>
              have hpe : rowPhone row = np := by simpa using hp
              have hnsee : ¬ rowStatus row = "Seen".toList :=
                hnos row (List.mem_cons_self _ _) hb hpe
              have hsee : (rowStatus row == "Seen".toList) = false := by
                rw [beq_eq_false_iff_ne]; exact hnsee
              have hnsee' : ¬ rowStatus row = ['S', 'e', 'e', 'n'] := by
                simpa using hnsee
              cases hst : (rowStatus row == "Sent".toList) with
              | true => simp [hb, hp, hsee, hnsee', hst]
              | false =>
                  have hw' : w ∈ rest := by
                    rcases List.mem_cons.mp hw with h | h
                    · subst h; rw [hws] at hst; simp at hst
                    · exact h
                  simpa [hb, hp, hsee, hnsee', hst] using ih ⟨w, hw', hwb, hwp, hws⟩ hnos'
          | false =>
              have hw' : w ∈ rest := by
                rcases List.mem_cons.mp hw with h | h
                · subst h; rw [hwp] at hp; simp at hp
                · exact h
              simpa [hb, hp] using ih ⟨w, hw', hwb, hwp, hws⟩ hnos'

theorem seenLoop_frame (np : String) (clock : Clock) (a : Bool) (rows : List (List Char)) :
    ((seenLoop np clock false a rows).updated = false ∧
      (seenLoop np clock false a rows).rows = rows.filter (fun r => !rowBlank r)) ∨
    (∃ pre row post,
      rows.filter (fun r => !rowBlank r) = pre ++ row :: post ∧
      (seenLoop np clock false a rows).rows = pre ++ seenRewriteRow row clock :: post ∧
      (seenLoop np clock false a rows).updated = true ∧
      rowPhone row = np ∧ rowStatus row = "Sent".toList) := by
  induction rows generalizing a with
  | nil => left; exact ⟨rfl, rfl⟩
  | cons row rest ih =>
      unfold seenLoop
      cases hb : rowBlank row with
      | true =>
          rcases ih a with ⟨h1, h2⟩ | ⟨pre, r, post, h1, h2, h3, h4, h5⟩
          · left
            exact ⟨by simpa [hb] using h1, by simpa [List.filter_cons, hb] using h2⟩
          · right
            exact ⟨pre, r, post, by simpa [List.filter_cons, hb] using h1,
              by simpa [hb] using h2, by simpa [hb] using h3, h4, h5⟩
      | false =>
          cases hp : (rowPhone row == np) with
          | false =>
              rcases ih a with ⟨h1, h2⟩ | ⟨pre, r, post, h1, h2, h3, h4, h5⟩
              · left
                exact ⟨by simp [hb, hp, h1], by simp [hb, hp, h2, List.filter_cons]⟩
              · right
                refine ⟨row :: pre, r, post, ?_, ?_, ?_, h4, h5⟩
                · simp [List.filter_cons, hb, h1]
                · simp [hb, hp, h2]
                · simp [hb, hp, h3]
          | true =>
              cases hsee : (rowStatus row == "Seen".toList) with
              | true =>
                  have hseeP : rowStatus row = ['S', 'e', 'e', 'n'] := by simpa using hsee
                  rcases ih true with ⟨h1, h2⟩ | ⟨pre, r, post, h1, h2, h3, h4, h5⟩
                  · left
                    exact ⟨by simp [hb, hp, hseeP, h1],
                      by simp [hb, hp, hseeP, h2, List.filter_cons]⟩
                  · right
                    refine ⟨row :: pre, r, post, ?_, ?_, ?_, h4, h5⟩
                    · simp [List.filter_cons, hb, h1]
                    · simp [hb, hp, hseeP, h2]
                    · simp [hb, hp, hseeP, h3]
              | false =>
                  have hnsee' : ¬ rowStatus row = ['S', 'e', 'e', 'n'] := by simpa using hsee
                  cases hst : (rowStatus row == "Sent".toList) with
                  | false =>
                      rcases ih a with ⟨h1, h2⟩ | ⟨pre, r, post, h1, h2, h3, h4, h5⟩
                      · left
                        exact ⟨by simp [hb, hp, hnsee', hst, h1],
                          by simp [hb, hp, hnsee', hst, h2, List.filter_cons]⟩
                      · right
                        refine ⟨row :: pre, r, post, ?_, ?_, ?_, h4, h5⟩
                        · simp [List.filter_cons, hb, h1]
                        · simp [hb, hp, hnsee', hst, h2]
                        · simp [hb, hp, hnsee', hst, h3]
                  | true =>
                      cases ha : a with
                      | true =>
                          rcases ih true with ⟨h1, h2⟩ | ⟨pre, r, post, h1, h2, h3, h4, h5⟩
                          · left
                            exact ⟨by simp [hb, hp, hnsee', hst, h1],
                              by simp [hb, hp, hnsee', hst, h2, List.filter_cons]⟩
                          · right
                            refine ⟨row :: pre, r, post, ?_, ?_, ?_, h4, h5⟩
                            · simp [List.filter_cons, hb, h1]
                            · simp [hb, hp, hnsee', hst, h2]
                            · simp [hb, hp, hnsee', hst, h3]
                      | false =>
                          right
                          have hrows := (seenLoop_updated_rows np clock false rest).1
                          refine ⟨[], row, rest.filter (fun r => !rowBlank r), ?_, ?_, ?_,
                            by simpa using hp, by simpa using hst⟩
                          · simp [List.filter_cons, hb]
                          · simp [hb, hp, hnsee', hst, hrows]
                          · simp [hb, hp, hnsee', hst]

/-- Main-log header and a single Sent row used for concrete instances. -/
def seenDemoHeader : List Char :=
  "Phone,Name,Timestamp,Status,SeenTimestamp,TimeToSee,LastUpdated".toList

/-- A well-formed Sent row for phone 919876543210. -/
def seenDemoRow : List Char := "919876543210,Ali,2025-01-01 10:00:00,Sent,,,".toList

/-- A main log holding the header and one Sent row. -/
def seenDemoContent : List Char := seenDemoHeader ++ '\n' :: seenDemoRow ++ ['\n']

/-- Claim C5: when the log holds a Sent row for the phone (and no Seen
row, and no notification was recorded yet), the first
`updateLogWithSeenStatus` call rewrites the file, and calling it again
performs no write, changes no state and returns none — the transition
is idempotent and the log is modified exactly once. -/
theorem c5_seen_transition_idempotent (st : SeenState) (phone : String) (clock1 clock2 : Clock)
    (content header : List Char) (body : List (List Char))
    (hfile : st.file = some content)
    (hsplit : splitNl content = header :: body)
    (hnotif : setHas st.seenNotifications (normalizePhone000 phone) = false)
    (hex : ∃ row ∈ body, rowBlank row = false ∧ rowPhone row = normalizePhone000 phone ∧
      rowStatus row = "Sent".toList)
    (hnos : ∀ row ∈ body, rowBlank row = false → rowPhone row = normalizePhone000 phone →
      ¬ rowStatus row = "Seen".toList) :
    (updateLogWithSeenStatus st phone clock1).wrote = true ∧
    updateLogWithSeenStatus (updateLogWithSeenStatus st phone clock1).state phone clock2 =
      ⟨(updateLogWithSeenStatus st phone clock1).state, none, false⟩ := by
  have hupd : (seenLoop (normalizePhone000 phone) clock1 false false body).updated = true :=
    seenLoop_updates _ _ _ hex hnos
  have hstate : (updateLogWithSeenStatus st phone clock1).state =
      { file := some (joinNl (header ::
          (seenLoop (normalizePhone000 phone) clock1 false false body).rows) ++ ['\n']),
        seenNotifications := setAdd (normalizePhone000 phone) st.seenNotifications } := by
    simp [updateLogWithSeenStatus, hfile, hsplit, hnotif, hupd]
  constructor
  · simp [updateLogWithSeenStatus, hfile, hsplit, hnotif, hupd]
  · rw [hstate]
    cases hsplit2 : splitNl (joinNl (header ::
        (seenLoop (normalizePhone000 phone) clock1 false false body).rows) ++ ['\n']) with
    | nil => exact absurd hsplit2 (splitNl_ne_nil _)
    | cons h2 b2 =>
        have halready : setHas (setAdd (normalizePhone000 phone) st.seenNotifications)
            (normalizePhone000 phone) = true := setHas_setAdd_self _ _
        have hnoupd := seenLoop_alreadySeen (normalizePhone000 phone) clock2 false b2
        simp [updateLogWithSeenStatus, hsplit2, halready, hnoupd]

/-- Concrete instance of the C5 theorem. -/
theorem c5_seen_transition_idempotent_witness :
    (updateLogWithSeenStatus ⟨some seenDemoContent, []⟩ "9876543210" testClock).wrote = true ∧
    updateLogWithSeenStatus
        (updateLogWithSeenStatus ⟨some seenDemoContent, []⟩ "9876543210" testClock).state
        "9876543210" testClock =
      ⟨(updateLogWithSeenStatus ⟨some seenDemoContent, []⟩ "9876543210" testClock).state,
        none, false⟩ :=
  c5_seen_transition_idempotent ⟨some seenDemoContent, []⟩ "9876543210" testClock testClock
    seenDemoContent seenDemoHeader [seenDemoRow, []] rfl (by decide) rfl (by decide) (by decide)

/-- A main log holding two Sent rows for the same phone: the row with
send timestamp 2025-01-01 is the older one, the 2025-06-01 row the most
recent. -/
def twoSentContent : List Char :=
  ("Phone,Name,Timestamp,Status,SeenTimestamp,TimeToSee,LastUpdated\n" ++
   "919876543210,Ali,2025-01-01 10:00:00,Sent,,,\n" ++
   "919876543210,Ali,2025-06-01 10:00:00,Sent,,,\n").toList

set_option maxRecDepth 100000 in
/-- Claim C6 (code bug): with two Sent rows for the phone in the log,
`updateLogWithSeenStatus` rewrites the OLDEST Sent row (the scan runs
from the top of the file, i.e. from the oldest entry), not the most
recent one: the 2025-01-01 row becomes Seen while the 2025-06-01 row
stays Sent, contradicting the spec and the comment in the code itself,
which promise that the most recent Sent entry is updated.  The elapsed
seconds and the captured name come from the rewritten (oldest) row. -/
theorem c6_oldest_sent_row_rewritten :
    (updateLogWithSeenStatus ⟨some twoSentContent, []⟩ "9876543210" testClock).state.file =
      some (("Phone,Name,Timestamp,Status,SeenTimestamp,TimeToSee,LastUpdated\n" ++
        "919876543210,Ali,2025-01-01 10:00:00,Seen,2025-08-01 12:00:00,35200,2025-08-01 12:00:00\n" ++
        "919876543210,Ali,2025-06-01 10:00:00,Sent,,,\n").toList) ∧
    (updateLogWithSeenStatus ⟨some twoSentContent, []⟩ "9876543210" testClock).customerName =
      some "Ali".toList ∧
    (updateLogWithSeenStatus ⟨some twoSentContent, []⟩ "9876543210" testClock).wrote = true := by
  decide

/-- Claim C10: `updateLogWithSeenStatus` has the frame property: either
nothing was written and the state is unchanged, or the rewritten file
consists of the unchanged header followed by the non-blank body rows
with exactly one row — a Sent row of the target phone — replaced by its
Seen rewrite, every other row (of this or any other phone) unchanged in
content and relative order. -/
theorem c10_seen_update_frame (st : SeenState) (phone : String) (clock : Clock)
    (content header : List Char) (body : List (List Char))
    (hfile : st.file = some content) (hsplit : splitNl content = header :: body) :
    ((updateLogWithSeenStatus st phone clock).wrote = false ∧
      (updateLogWithSeenStatus st phone clock).state = st) ∨
    (∃ pre row post,
      body.filter (fun r => !rowBlank r) = pre ++ row :: post ∧
      (updateLogWithSeenStatus st phone clock).state.file =
        some (joinNl (header :: (pre ++ seenRewriteRow row clock :: post)) ++ ['\n']) ∧
      rowPhone row = normalizePhone000 phone ∧
      rowStatus row = "Sent".toList) := by
  rcases seenLoop_frame (normalizePhone000 phone) clock
      (setHas st.seenNotifications (normalizePhone000 phone)) body with ⟨h1, h2⟩ |
    ⟨pre, row, post, h1, h2, h3, h4, h5⟩
  · left
    constructor <;> simp [updateLogWithSeenStatus, hfile, hsplit, h1]
  · right
    exact ⟨pre, row, post, h1,
      by simp [updateLogWithSeenStatus, hfile, hsplit, h3, h2], h4, h5⟩

/-- Concrete instance of the C10 theorem. -/
theorem c10_seen_update_frame_witness :
    (((updateLogWithSeenStatus ⟨some seenDemoContent, []⟩ "9876543210" testClock).wrote = false ∧
      (updateLogWithSeenStatus ⟨some seenDemoContent, []⟩ "9876543210" testClock).state =
        ⟨some seenDemoContent, []⟩) ∨
    (∃ pre row post,
      [seenDemoRow, []].filter (fun r => !rowBlank r) = pre ++ row :: post ∧
      (updateLogWithSeenStatus ⟨some seenDemoContent, []⟩ "9876543210" testClock).state.file =
        some (joinNl (seenDemoHeader :: (pre ++ seenRewriteRow row testClock :: post)) ++ ['\n']) ∧
      rowPhone row = normalizePhone000 "9876543210" ∧
      rowStatus row = "Sent".toList)) :=
  c10_seen_update_frame ⟨some seenDemoContent, []⟩ "9876543210" testClock
    seenDemoContent seenDemoHeader [seenDemoRow, []] rfl (by decide)
